import Mathlib

/-!
Shallow embedding of the collaborative pixel-art backend core
(src/backend/index.js, WebSocket portion, lines 32-105).

The server keeps a plain JavaScript object `gridState = {}` mapping cell
keys ("x,y") to `{ color, username }`, a WebSocket server whose `clients`
set holds the currently registered connections, and per-connection
handlers:
  - on connection: the socket is added to `wss.clients`, then the server
    sends `{ type: "init", grid: gridState }` to the new socket;
  - on message: parse JSON (a parse failure is logged and dropped); if
    `data.type === "colorCell" && data.key && data.color && data.username`
    and `!gridState[data.key]`, insert `{ color, username }` under the key
    and send `{ type: "cellUpdate", key, color, username }` to every client
    in `wss.clients` whose `readyState` is OPEN; otherwise do nothing;
  - on close: the library removes the socket from `wss.clients`; the
    handler itself only logs.

JavaScript semantics that matter and are embedded explicitly:
  - truthiness of the field guards (`data.key && ...`): `undefined`,
    `null`, `false`, `0` and `""` are falsy;
  - property reads on a plain object consult the prototype chain, so
    `gridState[k]` is truthy for every own key AND for every property
    name inherited from `Object.prototype` (e.g. "toString");
  - property keys are strings; a non-string field used as a key is
    coerced with ToString.
-/

/-- A JSON-ish value as the message handler sees a field: `vabsent` is
JavaScript `undefined` (field missing from the parsed object). Floats do
not occur in the claims; numbers are embedded as integers. -/
inductive JVal where
  | vabsent
  | vnull
  | vbool (b : Bool)
  | vnum (n : Int)
  | vstr (s : String)
deriving DecidableEq, Repr

/-- JavaScript truthiness of a field value, as used by the guard
`data.key && data.color && data.username` in index.js line 66. -/
def JVal.truthy : JVal → Bool
  | .vabsent => false
  | .vnull => false
  | .vbool b => b
  | .vnum n => n != 0
  | .vstr s => s != ""

/-- JavaScript ToString coercion applied when a value is used as a
property key (`gridState[data.key]`). -/
def JVal.toKey : JVal → String
  | .vabsent => "undefined"
  | .vnull => "null"
  | .vbool b => if b then "true" else "false"
  | .vnum n => toString n
  | .vstr s => s

/-- The value stored under a cell key: `{ color: data.color,
username: data.username }` (index.js lines 70-73). -/
structure Occupant where
  color : JVal
  username : JVal
deriving DecidableEq, Repr

/-- `gridState`, the plain object used as a map, embedded as an
association list of own properties (insertion order, unique keys). -/
abbrev GridState := List (String × Occupant)

/-- Own-property lookup on `gridState` (no prototype chain). -/
def lookupOwn : GridState → String → Option Occupant
  | [], _ => none
  | (k, v) :: rest, key => if key = k then some v else lookupOwn rest key

/-- The own property names of `Object.prototype` in Node.js. A plain
object `{}` inherits all of them, and each of their values (a function,
or for `__proto__` the `Object.prototype` object itself) is truthy. -/
def protoKeys : List String :=
  ["constructor", "__defineGetter__", "__defineSetter__", "hasOwnProperty",
   "__lookupGetter__", "__lookupSetter__", "isPrototypeOf",
   "propertyIsEnumerable", "toString", "valueOf", "__proto__",
   "toLocaleString"]

/-- Truthiness of `gridState[k]`: an own property (always an object,
hence truthy) or an inherited `Object.prototype` property. This is the
emptiness test `!gridState[data.key]` of index.js line 68, un-negated. -/
def cellTruthy (g : GridState) (k : String) : Bool :=
  (lookupOwn g k).isSome || protoKeys.contains k

/-- JavaScript property assignment `gridState[k] = v` on own keys:
replace if the key is already an own property, else append. (In the
handler this only runs when `gridState[k]` is falsy, so in fact only the
append branch is ever taken, and `k` is never a prototype key.) -/
def setKey : GridState → String → Occupant → GridState
  | [], key, v => [(key, v)]
  | (k, w) :: rest, key, v =>
      if key = k then (key, v) :: rest else (k, w) :: setKey rest key v

/-- The parsed fields of an inbound JSON message that the handler reads. -/
structure MsgData where
  type : JVal
  key : JVal
  color : JVal
  username : JVal
deriving DecidableEq, Repr

/-- An inbound WebSocket message: either text that fails `JSON.parse`
(caught and dropped, lines 58-63) or a parsed object. -/
inductive InMsg where
  | invalidJson
  | parsed (d : MsgData)
deriving DecidableEq, Repr

/-- Outbound messages produced by the server core. -/
inductive OutMsg where
  | init (grid : GridState)
  | cellUpdate (key color username : JVal)
deriving DecidableEq, Repr

/-- The guard of the pixel placement handler, index.js line 66:
`data.type === "colorCell" && data.key && data.color && data.username`. -/
def wellFormed (d : MsgData) : Bool :=
  d.type == JVal.vstr "colorCell" && d.key.truthy && d.color.truthy
    && d.username.truthy

/-- The check-then-set of index.js lines 68-73, factored as the spec's
`try_claim`: if `gridState[key]` is falsy, insert the occupant and accept;
otherwise change nothing and reject. -/
def tryClaim (g : GridState) (k : String) (occ : Occupant) :
    Bool × GridState :=
  if !(cellTruthy g k) then (true, setKey g k occ) else (false, g)

/-- Server state: the grid, the connections registered in `wss.clients`
(a JS `Set`, so no duplicates), and the connections whose transport
`readyState` is OPEN. Connections are identified by natural numbers. -/
structure ServerState where
  grid : GridState
  clients : List Nat
  opens : List Nat
deriving DecidableEq, Repr

/-- The state at process start: `gridState = {}`, no connections. -/
def initState : ServerState := ⟨[], [], []⟩

/-- Adding a connection to `wss.clients` (JS `Set.add`: no duplicate). -/
def addClient (cs : List Nat) (c : Nat) : List Nat :=
  if c ∈ cs then cs else cs ++ [c]

/-- The broadcast fan-out of index.js lines 77-86: iterate over
`wss.clients`, and send to each client whose `readyState` is OPEN. The
result is the list of (connection, message) send attempts in order. -/
def broadcastTo (clients opens : List Nat) (m : OutMsg) :
    List (Nat × OutMsg) :=
  (clients.filter (fun c => c ∈ opens)).map (fun c => (c, m))

/-- The `ws.on("message")` handler, index.js lines 56-95. Returns the
new server state and the outbound sends it performed. -/
def handleMessage (s : ServerState) (m : InMsg) :
    ServerState × List (Nat × OutMsg) :=
  match m with
  | .invalidJson => (s, [])
  | .parsed d =>
      if wellFormed d then
        let k := d.key.toKey
        let r := tryClaim s.grid k ⟨d.color, d.username⟩
        if r.1 then
          ({ s with grid := r.2 },
           broadcastTo s.clients s.opens (.cellUpdate d.key d.color d.username))
        else (s, [])
      else (s, [])

/-- External events driving the server: a connection opening, a message
arriving on a connection, a connection closing. -/
inductive Event where
  | connect (c : Nat)
  | message (c : Nat) (m : InMsg)
  | disconnect (c : Nat)
deriving DecidableEq, Repr

/-- One event step of the server. On `connect`, the ws library adds the
socket to `wss.clients` (and it is OPEN), then the `connection` handler
(index.js lines 45-50) sends `init` with the current grid to that socket
only. On `disconnect`, the library removes the socket and the `close`
handler (lines 101-104) sends nothing. Node.js runs these handlers one
at a time on the event loop, so a step is atomic. -/
def step (s : ServerState) : Event → ServerState × List (Nat × OutMsg)
  | .connect c =>
      ({ s with clients := addClient s.clients c, opens := addClient s.opens c },
       [(c, .init s.grid)])
  | .message _ m => handleMessage s m
  | .disconnect c =>
      ({ s with clients := s.clients.erase c, opens := s.opens.erase c }, [])

/-- Run a sequence of events, collecting all outbound sends in order. -/
def runFrom (s : ServerState) : List Event → ServerState × List (Nat × OutMsg)
  | [] => (s, [])
  | e :: es =>
      let r := step s e
      let r' := runFrom r.1 es
      (r'.1, r.2 ++ r'.2)

/-- The server state after a run from process start. -/
def runState (es : List Event) : ServerState := (runFrom initState es).1

/-- The (key, occupant) pairs accepted by one event in state `s`:
empty unless the event is a well-formed `colorCell` whose `tryClaim`
accepts. -/
def acceptedOf (s : ServerState) : Event → List (String × Occupant)
  | .message _ (.parsed d) =>
      if wellFormed d && (tryClaim s.grid d.key.toKey ⟨d.color, d.username⟩).1
      then [(d.key.toKey, ⟨d.color, d.username⟩)] else []
  | _ => []

/-- All accepted claims over a run, in order. -/
def acceptedLog (s : ServerState) : List Event → List (String × Occupant)
  | [] => []
  | e :: es => acceptedOf s e ++ acceptedLog (step s e).1 es

/-- Modelled transport delivery: per the ws library, `send` on a socket
in state OPEN enqueues the frame and reports any transport failure
asynchronously (via callback or "error" event), never by throwing into
the caller; so a failing connection loses only its own frame. `fails c`
says that the transport of connection `c` fails; the delivered sends are the
attempts minus the failing connections. -/
def deliveredOf (attempts : List (Nat × OutMsg)) (fails : Nat → Bool) :
    List (Nat × OutMsg) :=
  attempts.filter (fun p => !(fails p.1))

/-! Section: Basic lemmas about the grid object -/

theorem lookupOwn_setKey (g : GridState) (k key : String) (v : Occupant) :
    lookupOwn (setKey g k v) key = if key = k then some v else lookupOwn g key := by
  induction g with
  | nil => simp [setKey, lookupOwn]
  | cons p rest ih =>
    obtain ⟨k', w⟩ := p
    simp only [setKey]
    by_cases h1 : k = k'
    · subst h1
      by_cases h2 : key = k <;> simp [lookupOwn, h2]
    · simp only [if_neg h1, lookupOwn, ih]
      by_cases h2 : key = k' <;> by_cases h3 : key = k <;> simp_all

theorem lookupOwn_eq_none_of_not_cellTruthy {g : GridState} {k : String}
    (h : cellTruthy g k = false) : lookupOwn g k = none := by
  rw [cellTruthy, Bool.or_eq_false_iff] at h
  cases hl : lookupOwn g k with
  | none => rfl
  | some v => rw [hl] at h; simp at h

theorem tryClaim_fst (g : GridState) (k : String) (occ : Occupant) :
    (tryClaim g k occ).1 = !(cellTruthy g k) := by
  rw [tryClaim]
  cases cellTruthy g k <;> simp

theorem cellTruthy_setKey_self (g : GridState) (k : String) (occ : Occupant) :
    cellTruthy (setKey g k occ) k = true := by
  simp [cellTruthy, lookupOwn_setKey]

/-! Section: Shapes of one step -/

theorem step_accept_eq {s : ServerState} {c : Nat} {d : MsgData}
    (hwf : wellFormed d = true) (hct : cellTruthy s.grid d.key.toKey = false) :
    step s (.message c (.parsed d))
      = ({ s with grid := setKey s.grid d.key.toKey ⟨d.color, d.username⟩ },
         broadcastTo s.clients s.opens (.cellUpdate d.key d.color d.username)) := by
  simp [step, handleMessage, hwf, tryClaim, hct]

theorem step_reject_eq {s : ServerState} {c : Nat} {d : MsgData}
    (hwf : wellFormed d = true) (hct : cellTruthy s.grid d.key.toKey = true) :
    step s (.message c (.parsed d)) = (s, []) := by
  simp [step, handleMessage, hwf, tryClaim, hct]

theorem step_drop_eq {s : ServerState} {c : Nat} {d : MsgData}
    (hwf : wellFormed d = false) :
    step s (.message c (.parsed d)) = (s, []) := by
  simp [step, handleMessage, hwf]

theorem handleMessage_registry (s : ServerState) (m : InMsg) :
    (handleMessage s m).1.clients = s.clients ∧ (handleMessage s m).1.opens = s.opens := by
  cases m with
  | invalidJson => exact ⟨rfl, rfl⟩
  | parsed d =>
    by_cases h : wellFormed d
    · simp only [handleMessage, h, if_true]
      by_cases h2 : (tryClaim s.grid d.key.toKey ⟨d.color, d.username⟩).1 <;> simp [h2]
    · simp [handleMessage, h]

/-! Section: Monotonicity of the grid -/

theorem lookupOwn_step_mono {s : ServerState} {k : String} {v : Occupant}
    (e : Event) (h : lookupOwn s.grid k = some v) :
    lookupOwn (step s e).1.grid k = some v := by
  cases e with
  | connect c => simpa [step] using h
  | disconnect c => simpa [step] using h
  | message c m =>
    cases m with
    | invalidJson => simpa [step, handleMessage] using h
    | parsed d =>
      cases hwf : wellFormed d with
      | false => simpa [step_drop_eq hwf] using h
      | true =>
        cases hct : cellTruthy s.grid d.key.toKey with
        | true => simpa [step_reject_eq hwf hct] using h
        | false =>
          have hnone : lookupOwn s.grid d.key.toKey = none :=
            lookupOwn_eq_none_of_not_cellTruthy hct
          have hne : k ≠ d.key.toKey := by
            intro he; rw [he, hnone] at h; cases h
          rw [step_accept_eq hwf hct]
          simpa [lookupOwn_setKey, hne] using h

theorem runFrom_append (s : ServerState) (es1 es2 : List Event) :
    runFrom s (es1 ++ es2)
      = ((runFrom (runFrom s es1).1 es2).1,
         (runFrom s es1).2 ++ (runFrom (runFrom s es1).1 es2).2) := by
  induction es1 generalizing s with
  | nil => simp [runFrom]
  | cons e es ih => simp [runFrom, ih]

theorem lookupOwn_runFrom_mono {k : String} {v : Occupant}
    (s : ServerState) (es : List Event) (h : lookupOwn s.grid k = some v) :
    lookupOwn (runFrom s es).1.grid k = some v := by
  induction es generalizing s with
  | nil => simpa [runFrom] using h
  | cons e es ih =>
    simp only [runFrom]
    exact ih _ (lookupOwn_step_mono e h)

/-! Section: The accepted-claims log -/

theorem acceptedLog_append (s : ServerState) (es1 es2 : List Event) :
    acceptedLog s (es1 ++ es2)
      = acceptedLog s es1 ++ acceptedLog (runFrom s es1).1 es2 := by
  induction es1 generalizing s with
  | nil => simp [acceptedLog, runFrom]
  | cons e es ih => simp [acceptedLog, runFrom, ih]

theorem acceptedOf_mem {s : ServerState} {e : Event} {k : String} {v : Occupant}
    (h : (k, v) ∈ acceptedOf s e) :
    cellTruthy s.grid k = false ∧ lookupOwn (step s e).1.grid k = some v := by
  cases e with
  | connect c => simp [acceptedOf] at h
  | disconnect c => simp [acceptedOf] at h
  | message c m =>
    cases m with
    | invalidJson => simp [acceptedOf] at h
    | parsed d =>
      by_cases hcond : (wellFormed d && (tryClaim s.grid d.key.toKey ⟨d.color, d.username⟩).1) = true
      · rw [acceptedOf, if_pos hcond] at h
        rw [List.mem_singleton, Prod.mk.injEq] at h
        obtain ⟨hk, hv⟩ := h
        rw [Bool.and_eq_true, tryClaim_fst, Bool.not_eq_true'] at hcond
        obtain ⟨hwf, hct⟩ := hcond
        subst hk
        refine ⟨hct, ?_⟩
        rw [step_accept_eq hwf hct]
        simp [lookupOwn_setKey, hv]
      · rw [acceptedOf, if_neg hcond] at h
        simp at h

theorem acceptedLog_mem {k : String} {v : Occupant}
    (s : ServerState) (es : List Event) (h : (k, v) ∈ acceptedLog s es) :
    lookupOwn (runFrom s es).1.grid k = some v := by
  induction es generalizing s with
  | nil => simp [acceptedLog] at h
  | cons e es ih =>
    rw [acceptedLog, List.mem_append] at h
    rcases h with h | h
    · simp only [runFrom]
      exact lookupOwn_runFrom_mono _ _ (acceptedOf_mem h).2
    · simp only [runFrom]
      exact ih _ h

theorem acceptedLog_count_zero {k : String} {v : Occupant}
    (s : ServerState) (es : List Event) (h : lookupOwn s.grid k = some v) :
    ((acceptedLog s es).map Prod.fst).count k = 0 := by
  induction es generalizing s with
  | nil => simp [acceptedLog]
  | cons e es ih =>
    rw [acceptedLog, List.map_append, List.count_append]
    have hhead : ((acceptedOf s e).map Prod.fst).count k = 0 := by
      rw [List.count_eq_zero]
      intro hmem
      obtain ⟨p, hp, hfst⟩ := List.mem_map.mp hmem
      have hpk : p = (k, p.2) := by
        cases p; cases hfst; rfl
      rw [hpk] at hp
      have := (acceptedOf_mem hp).1
      rw [cellTruthy, h] at this
      simp at this
    rw [hhead, ih _ (lookupOwn_step_mono e h)]

theorem acceptedOf_length_le (s : ServerState) (e : Event) :
    (acceptedOf s e).length ≤ 1 := by
  cases e with
  | connect c => simp [acceptedOf]
  | disconnect c => simp [acceptedOf]
  | message c m =>
    cases m with
    | invalidJson => simp [acceptedOf]
    | parsed d =>
      rw [acceptedOf]
      split <;> simp

theorem acceptedLog_count_le_one (s : ServerState) (es : List Event) (k : String) :
    ((acceptedLog s es).map Prod.fst).count k ≤ 1 := by
  induction es generalizing s with
  | nil => simp [acceptedLog]
  | cons e es ih =>
    rw [acceptedLog, List.map_append, List.count_append]
    by_cases hk : ∃ v, (k, v) ∈ acceptedOf s e
    · obtain ⟨v, hv⟩ := hk
      have htail : ((acceptedLog (step s e).1 es).map Prod.fst).count k = 0 :=
        acceptedLog_count_zero _ _ (acceptedOf_mem hv).2
      have hhead : ((acceptedOf s e).map Prod.fst).count k ≤ 1 := by
        calc ((acceptedOf s e).map Prod.fst).count k
            ≤ ((acceptedOf s e).map Prod.fst).length := List.count_le_length _ _
          _ ≤ 1 := by rw [List.length_map]; exact acceptedOf_length_le s e
      omega
    · have hhead : ((acceptedOf s e).map Prod.fst).count k = 0 := by
        rw [List.count_eq_zero]
        intro hmem
        obtain ⟨p, hp, hfst⟩ := List.mem_map.mp hmem
        refine hk ⟨p.2, ?_⟩
        have hpk : p = (k, p.2) := by cases p; cases hfst; rfl
        rwa [hpk] at hp
      rw [hhead]
      simpa using ih (step s e).1

/-! Section: The connection registry -/

theorem addClient_nodup {cs : List Nat} {c : Nat} (h : cs.Nodup) :
    (addClient cs c).Nodup := by
  by_cases hc : c ∈ cs
  · simpa [addClient, hc] using h
  · rw [addClient, if_neg hc]
    exact List.nodup_append.mpr
      ⟨h, List.nodup_singleton c,
       fun a ha hb => hc ((List.mem_singleton.mp hb) ▸ ha)⟩

theorem step_clients_nodup {s : ServerState} (e : Event) (h : s.clients.Nodup) :
    (step s e).1.clients.Nodup := by
  cases e with
  | connect c =>
    show (addClient s.clients c).Nodup
    exact addClient_nodup h
  | message c m =>
    show (handleMessage s m).1.clients.Nodup
    rw [(handleMessage_registry s m).1]
    exact h
  | disconnect c =>
    show (s.clients.erase c).Nodup
    exact h.erase c

theorem runFrom_clients_nodup (s : ServerState) (es : List Event)
    (h : s.clients.Nodup) : (runFrom s es).1.clients.Nodup := by
  induction es generalizing s with
  | nil => simpa [runFrom] using h
  | cons e es ih =>
    simp only [runFrom]
    exact ih _ (step_clients_nodup e h)

/-! Section: Counting broadcast deliveries -/

theorem count_pair_map (l : List Nat) (m : OutMsg) (c : Nat) :
    (l.map (fun a => (a, m))).count (c, m) = l.count c := by
  induction l with
  | nil => simp
  | cons a l ih => simp [List.count_cons, ih, Prod.ext_iff]

theorem broadcastTo_count_one {clients opens : List Nat} {c : Nat} (m : OutMsg)
    (hnd : clients.Nodup) (hc : c ∈ clients) (ho : c ∈ opens) :
    (broadcastTo clients opens m).count (c, m) = 1 := by
  rw [broadcastTo, count_pair_map]
  exact List.count_eq_one_of_mem (hnd.filter _)
    (by simp [List.mem_filter, hc, ho])

theorem broadcastTo_count_zero {clients opens : List Nat} {c : Nat} (m : OutMsg)
    (h : c ∉ clients ∨ c ∉ opens) :
    (broadcastTo clients opens m).count (c, m) = 0 := by
  rw [List.count_eq_zero]
  intro hmem
  rw [broadcastTo, List.mem_map] at hmem
  obtain ⟨a, ha, heq⟩ := hmem
  have haeq : a = c := congrArg Prod.fst heq
  subst haeq
  rw [List.mem_filter] at ha
  rcases h with h | h
  · exact h ha.1
  · exact h (by simpa using ha.2)

/-! Section: Claim theorems -/

/-- C1, counterexample: the claim quantifies over every string key. The key
"toString" is absent from the grid at process start, yet the handler rejects a
well-formed placement request for it (the grid is unchanged and nothing is
sent), because `gridState["toString"]` finds the inherited
`Object.prototype.toString` and is truthy. -/
theorem C1_counterexample :
    lookupOwn initState.grid "toString" = none ∧
    step initState (.message 0 (.parsed ⟨.vstr "colorCell", .vstr "toString",
      .vstr "red", .vstr "alice"⟩)) = (initState, []) := by
  constructor
  · rfl
  · decide

/-- C1 (amended): for every well-formed colorCell request whose key is not one
of the property names inherited from `Object.prototype`: if the key is absent
from the grid, the occupant is inserted and the claim is accepted (with the
`cellUpdate` fan-out); if the key is present, the grid is unchanged and the
claim is rejected. Moreover the accepted-placement path is the only operation
that ever mutates the grid. -/
theorem C1_placement (s : ServerState) (c : Nat) (k color username : String)
    (hp : k ∉ protoKeys) (hk : k ≠ "") (hc : color ≠ "") (hu : username ≠ "") :
    (lookupOwn s.grid k = none →
       (tryClaim s.grid k ⟨.vstr color, .vstr username⟩).1 = true ∧
       step s (.message c (.parsed ⟨.vstr "colorCell", .vstr k, .vstr color,
           .vstr username⟩))
         = ({ s with grid := setKey s.grid k ⟨.vstr color, .vstr username⟩ },
            broadcastTo s.clients s.opens
              (.cellUpdate (.vstr k) (.vstr color) (.vstr username)))) ∧
    (∀ v, lookupOwn s.grid k = some v →
       (tryClaim s.grid k ⟨.vstr color, .vstr username⟩).1 = false ∧
       step s (.message c (.parsed ⟨.vstr "colorCell", .vstr k, .vstr color,
           .vstr username⟩)) = (s, [])) ∧
    (∀ (s' : ServerState) (e : Event), (step s' e).1.grid ≠ s'.grid →
       ∃ c' d, e = .message c' (.parsed d) ∧ wellFormed d = true ∧
         cellTruthy s'.grid d.key.toKey = false ∧
         (step s' e).1.grid = setKey s'.grid d.key.toKey ⟨d.color, d.username⟩) := by
  have hwf : wellFormed (⟨.vstr "colorCell", .vstr k, .vstr color,
      .vstr username⟩ : MsgData) = true := by
    simp [wellFormed, JVal.truthy, hk, hc, hu]
  refine ⟨fun hnone => ?_, fun v hsome => ?_, fun s' e hne => ?_⟩
  · have hct : cellTruthy s.grid k = false := by
      rw [cellTruthy, hnone]
      simpa using hp
    refine ⟨by simp [tryClaim_fst, hct], ?_⟩
    exact step_accept_eq hwf hct
  · have hct : cellTruthy s.grid k = true := by
      simp [cellTruthy, hsome]
    refine ⟨by simp [tryClaim_fst, hct], ?_⟩
    exact step_reject_eq hwf hct
  · cases e with
    | connect c' => exact absurd rfl hne
    | disconnect c' => exact absurd rfl hne
    | message c' m =>
      cases m with
      | invalidJson => exact absurd rfl hne
      | parsed d =>
        cases hwfd : wellFormed d with
        | false => rw [step_drop_eq hwfd] at hne ⊢; exact absurd rfl hne
        | true =>
          cases hct : cellTruthy s'.grid d.key.toKey with
          | true => rw [step_reject_eq hwfd hct] at hne; exact absurd rfl hne
          | false =>
            refine ⟨c', d, rfl, hwfd, hct, ?_⟩
            rw [step_accept_eq hwfd hct]

/-- C1 witness: a concrete accepted placement on the empty grid. -/
theorem C1_placement_witness :
    (tryClaim initState.grid "0,0" ⟨.vstr "red", .vstr "alice"⟩).1 = true ∧
    step initState (.message 0 (.parsed ⟨.vstr "colorCell", .vstr "0,0",
        .vstr "red", .vstr "alice"⟩))
      = ({ initState with
            grid := setKey initState.grid "0,0" ⟨.vstr "red", .vstr "alice"⟩ },
         broadcastTo initState.clients initState.opens
           (.cellUpdate (.vstr "0,0") (.vstr "red") (.vstr "alice"))) :=
  (C1_placement initState 0 "0,0" "red" "alice" (by decide) (by decide)
    (by decide) (by decide)).1 rfl

/-- C5: a message that fails JSON parsing, or a colorCell message with a
required field missing, is silently dropped: no outbound message, server state
(grid and registry) unchanged, and the rest of the run proceeds exactly as if
the malformed message had never arrived. -/
theorem C5_malformed (s : ServerState) (c : Nat) (d : MsgData)
    (rest : List Event) :
    step s (.message c .invalidJson) = (s, []) ∧
    (d.type = JVal.vstr "colorCell" →
      d.key = JVal.vabsent ∨ d.color = JVal.vabsent ∨ d.username = JVal.vabsent →
      step s (.message c (.parsed d)) = (s, [])) ∧
    runFrom s (.message c .invalidJson :: rest) = runFrom s rest := by
  refine ⟨rfl, fun ht hf => ?_, ?_⟩
  · have hwf : wellFormed d = false := by
      rcases hf with h | h | h <;> simp [wellFormed, h, ht, JVal.truthy]
    exact step_drop_eq hwf
  · simp [runFrom, step, handleMessage]

/-- C5 witness: a colorCell message with no color field is dropped on the
fresh server. -/
theorem C5_malformed_witness :
    step initState (.message 0 (.parsed ⟨.vstr "colorCell", .vstr "1,1",
      .vabsent, .vstr "alice"⟩)) = (initState, []) :=
  (C5_malformed initState 0 ⟨.vstr "colorCell", .vstr "1,1", .vabsent,
    .vstr "alice"⟩ []).2.1 rfl (Or.inr (Or.inl rfl))

/-- C9: a placement request whose key is one of the property names inherited
from `Object.prototype` (toString, constructor, hasOwnProperty, __proto__, …)
is always rejected — the grid is unchanged and nothing is broadcast — even on
a completely empty grid, because `gridState[key]` finds the inherited property
and the emptiness check `!gridState[key]` fails. -/
theorem C9_proto_keys (s : ServerState) (c : Nat) (k : String) (col u : JVal)
    (hp : k ∈ protoKeys) :
    step s (.message c (.parsed ⟨.vstr "colorCell", .vstr k, col, u⟩)) = (s, []) := by
  cases hwf : wellFormed (⟨.vstr "colorCell", .vstr k, col, u⟩ : MsgData) with
  | false => exact step_drop_eq hwf
  | true =>
    have hct : cellTruthy s.grid ((JVal.vstr k).toKey) = true := by
      rw [JVal.toKey, cellTruthy]
      have : protoKeys.contains k = true := by simpa using hp
      rw [this, Bool.or_true]
    exact step_reject_eq hwf hct

/-- C9 witness: claiming "toString" on the empty grid is rejected. -/
theorem C9_proto_keys_witness :
    step initState (.message 0 (.parsed ⟨.vstr "colorCell", .vstr "toString",
      .vstr "green", .vstr "mallory"⟩)) = (initState, []) :=
  C9_proto_keys initState 0 "toString" (.vstr "green") (.vstr "mallory")
    (by decide)

/-- C10: a colorCell message in which key, color and username are present but
any one is falsy (empty string, 0, false, null) is treated exactly like a
message with a missing field: dropped silently, no output, state unchanged. -/
theorem C10_falsy_fields (s : ServerState) (c : Nat) (d : MsgData)
    (ht : d.type = JVal.vstr "colorCell")
    (hf : d.key.truthy = false ∨ d.color.truthy = false ∨
      d.username.truthy = false) :
    step s (.message c (.parsed d)) = (s, []) := by
  have hwf : wellFormed d = false := by
    rcases hf with h | h | h <;> simp [wellFormed, h, ht]
  exact step_drop_eq hwf

/-- C10 witness: an empty-string color field is dropped. -/
theorem C10_falsy_fields_witness :
    step initState (.message 0 (.parsed ⟨.vstr "colorCell", .vstr "2,2",
      .vstr "", .vstr "bob"⟩)) = (initState, []) :=
  C10_falsy_fields initState 0 ⟨.vstr "colorCell", .vstr "2,2", .vstr "",
    .vstr "bob"⟩ rfl (Or.inr (Or.inl rfl))

/-- C2: over any run from process start, each key is accepted at most once,
and once a key maps to an occupant it keeps exactly that occupant for the
rest of the run (no overwrite, no deletion). -/
theorem C2_single_acceptance (pre suf : List Event) (k : String) (v : Occupant) :
    ((acceptedLog initState (pre ++ suf)).map Prod.fst).count k ≤ 1 ∧
    (lookupOwn (runState pre).grid k = some v →
      lookupOwn (runState (pre ++ suf)).grid k = some v) := by
  refine ⟨acceptedLog_count_le_one _ _ _, fun h => ?_⟩
  rw [runState, runFrom_append]
  exact lookupOwn_runFrom_mono _ _ h

/-- C2 witness: one accepted claim for "0,0" persists across a later
disconnect. -/
theorem C2_single_acceptance_witness :
    ((acceptedLog initState
        ([Event.connect 0, Event.message 0 (.parsed ⟨.vstr "colorCell",
            .vstr "0,0", .vstr "red", .vstr "alice"⟩)] ++
          [Event.disconnect 0])).map Prod.fst).count "0,0" ≤ 1 ∧
    lookupOwn (runState
        ([Event.connect 0, Event.message 0 (.parsed ⟨.vstr "colorCell",
            .vstr "0,0", .vstr "red", .vstr "alice"⟩)] ++
          [Event.disconnect 0])).grid "0,0"
      = some ⟨.vstr "red", .vstr "alice"⟩ :=
  ⟨(C2_single_acceptance
      [Event.connect 0, Event.message 0 (.parsed ⟨.vstr "colorCell",
        .vstr "0,0", .vstr "red", .vstr "alice"⟩)]
      [Event.disconnect 0] "0,0" ⟨.vstr "red", .vstr "alice"⟩).1,
   (C2_single_acceptance
      [Event.connect 0, Event.message 0 (.parsed ⟨.vstr "colorCell",
        .vstr "0,0", .vstr "red", .vstr "alice"⟩)]
      [Event.disconnect 0] "0,0" ⟨.vstr "red", .vstr "alice"⟩).2 (by decide)⟩

/-- C3: the registry holds no duplicate connections in any reachable state,
and an accepted placement sends the cellUpdate exactly once to every
connection that is registered and open at broadcast time (the sender
included, since it is registered and open like any other), and zero times to
every other connection. -/
theorem C3_broadcast_exact :
    (∀ es : List Event, (runState es).clients.Nodup) ∧
    (∀ (s : ServerState) (c c0 : Nat) (d : MsgData),
      s.clients.Nodup → wellFormed d = true →
      cellTruthy s.grid d.key.toKey = false →
      ((c0 ∈ s.clients ∧ c0 ∈ s.opens →
         (step s (.message c (.parsed d))).2.count
           (c0, .cellUpdate d.key d.color d.username) = 1) ∧
       (¬(c0 ∈ s.clients ∧ c0 ∈ s.opens) →
         (step s (.message c (.parsed d))).2.count
           (c0, .cellUpdate d.key d.color d.username) = 0))) := by
  constructor
  · intro es
    exact runFrom_clients_nodup initState es List.nodup_nil
  · intro s c c0 d hnd hwf hct
    rw [step_accept_eq hwf hct]
    constructor
    · rintro ⟨h1, h2⟩
      exact broadcastTo_count_one _ hnd h1 h2
    · intro h
      exact broadcastTo_count_zero _ (not_and_or.mp h)

/-- C3 witness: with connections 0 and 1 registered and open, an accepted
placement sent by 0 delivers the cellUpdate exactly once to connection 1. -/
theorem C3_broadcast_exact_witness :
    (step ⟨[], [0, 1], [0, 1]⟩ (.message 0 (.parsed ⟨.vstr "colorCell",
        .vstr "0,0", .vstr "red", .vstr "alice"⟩))).2.count
      (1, .cellUpdate (.vstr "0,0") (.vstr "red") (.vstr "alice")) = 1 :=
  (C3_broadcast_exact.2 ⟨[], [0, 1], [0, 1]⟩ 0 1
    ⟨.vstr "colorCell", .vstr "0,0", .vstr "red", .vstr "alice"⟩
    (by decide) (by decide) (by decide)).1 (by decide)

/-- C4: a connection joining after any run is sent exactly one init message,
whose grid is the full current grid; every claim accepted during the run is
present in that grid with its accepted occupant unmodified; and an init
message arises only from a connection event, never from anything else. -/
theorem C4_init_snapshot (es : List Event) (c : Nat) :
    (step (runState es) (.connect c)).2 = [(c, .init (runState es).grid)] ∧
    (∀ k v, (k, v) ∈ acceptedLog initState es →
      lookupOwn (runState es).grid k = some v) ∧
    (∀ (s : ServerState) (e : Event) (c' : Nat) (g : GridState),
      (c', .init g) ∈ (step s e).2 → e = .connect c' ∧ g = s.grid) := by
  refine ⟨rfl, fun k v h => acceptedLog_mem _ _ h, fun s e c' g h => ?_⟩
  cases e with
  | connect c2 =>
    simp only [step, List.mem_singleton, Prod.mk.injEq, OutMsg.init.injEq] at h
    exact ⟨by rw [h.1], h.2⟩
  | message c2 m =>
    exfalso
    cases m with
    | invalidJson => simp [step, handleMessage] at h
    | parsed d =>
      cases hwf : wellFormed d with
      | false => rw [step_drop_eq hwf] at h; simp at h
      | true =>
        cases hct : cellTruthy s.grid d.key.toKey with
        | true => rw [step_reject_eq hwf hct] at h; simp at h
        | false =>
          rw [step_accept_eq hwf hct] at h
          simp [broadcastTo] at h
  | disconnect c2 => simp [step] at h

/-- C4 witness: connection 1 joining after one accepted claim receives init
with that claim present unmodified. -/
theorem C4_init_snapshot_witness :
    (step (runState [Event.connect 0, Event.message 0 (.parsed
        ⟨.vstr "colorCell", .vstr "0,0", .vstr "red", .vstr "alice"⟩)])
      (.connect 1)).2
      = [(1, .init (runState [Event.connect 0, Event.message 0 (.parsed
          ⟨.vstr "colorCell", .vstr "0,0", .vstr "red", .vstr "alice"⟩)]).grid)] ∧
    lookupOwn (runState [Event.connect 0, Event.message 0 (.parsed
        ⟨.vstr "colorCell", .vstr "0,0", .vstr "red", .vstr "alice"⟩)]).grid
      "0,0" = some ⟨.vstr "red", .vstr "alice"⟩ :=
  ⟨(C4_init_snapshot [Event.connect 0, Event.message 0 (.parsed
      ⟨.vstr "colorCell", .vstr "0,0", .vstr "red", .vstr "alice"⟩)] 1).1,
   (C4_init_snapshot [Event.connect 0, Event.message 0 (.parsed
      ⟨.vstr "colorCell", .vstr "0,0", .vstr "red", .vstr "alice"⟩)] 1).2.1
     "0,0" ⟨.vstr "red", .vstr "alice"⟩ (by decide)⟩

/-- C6: the concrete scenario. A joins and gets init with the empty grid; the
claim of "0,0" in red by A is accepted and the cellUpdate goes to every
connection open at that moment (just A); B joins and gets init containing the
red "0,0" cell; the claim of "0,0" in blue by B is rejected with no message to
anyone and the grid unchanged. -/
theorem C6_scenario :
    runFrom initState
      [.connect 0,
       .message 0 (.parsed ⟨.vstr "colorCell", .vstr "0,0", .vstr "red",
         .vstr "alice"⟩),
       .connect 1,
       .message 1 (.parsed ⟨.vstr "colorCell", .vstr "0,0", .vstr "blue",
         .vstr "bob"⟩)]
      = (⟨[("0,0", ⟨.vstr "red", .vstr "alice"⟩)], [0, 1], [0, 1]⟩,
         [(0, .init []),
          (0, .cellUpdate (.vstr "0,0") (.vstr "red") (.vstr "alice")),
          (1, .init [("0,0", ⟨.vstr "red", .vstr "alice"⟩)])]) := by
  decide

/-- C7: in the broadcast fan-out, delivery to each open connection is
independent of transport failures on the other connections: whatever the set
of failing connections, every open registered connection whose own transport
does not fail receives the message. -/
theorem C7_delivery_independent (clients opens : List Nat) (m : OutMsg)
    (fails : Nat → Bool) (c : Nat)
    (hc : c ∈ clients) (ho : c ∈ opens) (hf : fails c = false) :
    (c, m) ∈ deliveredOf (broadcastTo clients opens m) fails := by
  rw [deliveredOf, List.mem_filter]
  refine ⟨?_, by simp [hf]⟩
  rw [broadcastTo, List.mem_map]
  exact ⟨c, by simp [List.mem_filter, hc, ho], rfl⟩

/-- C7 witness: the transport of connection 1 fails mid-fan-out, yet connection 2,
later in the iteration order, still receives the message. -/
theorem C7_delivery_independent_witness :
    (2, OutMsg.cellUpdate (.vstr "5,5") (.vstr "red") (.vstr "alice")) ∈
      deliveredOf (broadcastTo [0, 1, 2] [0, 1, 2]
        (OutMsg.cellUpdate (.vstr "5,5") (.vstr "red") (.vstr "alice")))
        (fun n => n == 1) :=
  C7_delivery_independent [0, 1, 2] [0, 1, 2]
    (OutMsg.cellUpdate (.vstr "5,5") (.vstr "red") (.vstr "alice"))
    (fun n => n == 1) 2 (by decide) (by decide) (by decide)

theorem run_two_claims (s : ServerState) (cA cB : Nat) (k : String)
    (colA colB uA uB : JVal)
    (hct : cellTruthy s.grid k = false) (hk : k ≠ "")
    (hcA : colA.truthy = true) (hcB : colB.truthy = true)
    (huA : uA.truthy = true) (huB : uB.truthy = true) :
    acceptedLog s [.message cA (.parsed ⟨.vstr "colorCell", .vstr k, colA, uA⟩),
                   .message cB (.parsed ⟨.vstr "colorCell", .vstr k, colB, uB⟩)]
      = [(k, ⟨colA, uA⟩)] ∧
    lookupOwn (runFrom s
      [.message cA (.parsed ⟨.vstr "colorCell", .vstr k, colA, uA⟩),
       .message cB (.parsed ⟨.vstr "colorCell", .vstr k, colB, uB⟩)]).1.grid k
      = some ⟨colA, uA⟩ ∧
    (runFrom s
      [.message cA (.parsed ⟨.vstr "colorCell", .vstr k, colA, uA⟩),
       .message cB (.parsed ⟨.vstr "colorCell", .vstr k, colB, uB⟩)]).2
      = broadcastTo s.clients s.opens (.cellUpdate (.vstr k) colA uA) := by
  have hkt : (JVal.vstr k).truthy = true := by
    simp [JVal.truthy, hk]
  have hwfA : wellFormed (⟨.vstr "colorCell", .vstr k, colA, uA⟩ : MsgData) = true := by
    simp [wellFormed, hkt, hcA, huA]
  have hwfB : wellFormed (⟨.vstr "colorCell", .vstr k, colB, uB⟩ : MsgData) = true := by
    simp [wellFormed, hkt, hcB, huB]
  have h2 : cellTruthy (setKey s.grid k ⟨colA, uA⟩) k = true :=
    cellTruthy_setKey_self s.grid k ⟨colA, uA⟩
  refine ⟨?_, ?_, ?_⟩ <;>
    simp [acceptedLog, acceptedOf, runFrom, step, handleMessage, tryClaim,
      JVal.toKey, hwfA, hwfB, hct, h2, lookupOwn_setKey]

/-- C8: two placement requests for the same unclaimed key with different
colors, arriving together: whichever order the single-threaded event loop
processes them in, exactly the first is accepted and the other rejected,
exactly one cellUpdate fan-out for that key is produced, and the grid entry
for the key is the occupant of the accepted request. -/
theorem C8_concurrent_claims (s : ServerState) (c1 c2 : Nat) (k : String)
    (col1 col2 u1 u2 : JVal)
    (hct : cellTruthy s.grid k = false) (hk : k ≠ "")
    (hc1 : col1.truthy = true) (hc2 : col2.truthy = true)
    (hu1 : u1.truthy = true) (hu2 : u2.truthy = true) :
    (acceptedLog s [.message c1 (.parsed ⟨.vstr "colorCell", .vstr k, col1, u1⟩),
                    .message c2 (.parsed ⟨.vstr "colorCell", .vstr k, col2, u2⟩)]
       = [(k, ⟨col1, u1⟩)] ∧
     lookupOwn (runFrom s
       [.message c1 (.parsed ⟨.vstr "colorCell", .vstr k, col1, u1⟩),
        .message c2 (.parsed ⟨.vstr "colorCell", .vstr k, col2, u2⟩)]).1.grid k
       = some ⟨col1, u1⟩ ∧
     (runFrom s
       [.message c1 (.parsed ⟨.vstr "colorCell", .vstr k, col1, u1⟩),
        .message c2 (.parsed ⟨.vstr "colorCell", .vstr k, col2, u2⟩)]).2
       = broadcastTo s.clients s.opens (.cellUpdate (.vstr k) col1 u1)) ∧
    (acceptedLog s [.message c2 (.parsed ⟨.vstr "colorCell", .vstr k, col2, u2⟩),
                    .message c1 (.parsed ⟨.vstr "colorCell", .vstr k, col1, u1⟩)]
       = [(k, ⟨col2, u2⟩)] ∧
     lookupOwn (runFrom s
       [.message c2 (.parsed ⟨.vstr "colorCell", .vstr k, col2, u2⟩),
        .message c1 (.parsed ⟨.vstr "colorCell", .vstr k, col1, u1⟩)]).1.grid k
       = some ⟨col2, u2⟩ ∧
     (runFrom s
       [.message c2 (.parsed ⟨.vstr "colorCell", .vstr k, col2, u2⟩),
        .message c1 (.parsed ⟨.vstr "colorCell", .vstr k, col1, u1⟩)]).2
       = broadcastTo s.clients s.opens (.cellUpdate (.vstr k) col2 u2)) :=
  ⟨run_two_claims s c1 c2 k col1 col2 u1 u2 hct hk hc1 hc2 hu1 hu2,
   run_two_claims s c2 c1 k col2 col1 u2 u1 hct hk hc2 hc1 hu2 hu1⟩

/-- C8 witness: simultaneous red/blue claims for the fresh key "5,5" with two
open connections, evaluated in both processing orders. -/
theorem C8_concurrent_claims_witness :
    (acceptedLog ⟨[], [0, 1], [0, 1]⟩
        [.message 0 (.parsed ⟨.vstr "colorCell", .vstr "5,5", .vstr "red",
           .vstr "alice"⟩),
         .message 1 (.parsed ⟨.vstr "colorCell", .vstr "5,5", .vstr "blue",
           .vstr "bob"⟩)]
       = [("5,5", ⟨.vstr "red", .vstr "alice"⟩)] ∧
     lookupOwn (runFrom (⟨[], [0, 1], [0, 1]⟩ : ServerState)
       [.message 0 (.parsed ⟨.vstr "colorCell", .vstr "5,5", .vstr "red",
          .vstr "alice"⟩),
        .message 1 (.parsed ⟨.vstr "colorCell", .vstr "5,5", .vstr "blue",
          .vstr "bob"⟩)]).1.grid "5,5"
       = some ⟨.vstr "red", .vstr "alice"⟩ ∧
     (runFrom (⟨[], [0, 1], [0, 1]⟩ : ServerState)
       [.message 0 (.parsed ⟨.vstr "colorCell", .vstr "5,5", .vstr "red",
          .vstr "alice"⟩),
        .message 1 (.parsed ⟨.vstr "colorCell", .vstr "5,5", .vstr "blue",
          .vstr "bob"⟩)]).2
       = broadcastTo [0, 1] [0, 1]
           (.cellUpdate (.vstr "5,5") (.vstr "red") (.vstr "alice"))) ∧
    (acceptedLog ⟨[], [0, 1], [0, 1]⟩
        [.message 1 (.parsed ⟨.vstr "colorCell", .vstr "5,5", .vstr "blue",
           .vstr "bob"⟩),
         .message 0 (.parsed ⟨.vstr "colorCell", .vstr "5,5", .vstr "red",
           .vstr "alice"⟩)]
       = [("5,5", ⟨.vstr "blue", .vstr "bob"⟩)] ∧
     lookupOwn (runFrom (⟨[], [0, 1], [0, 1]⟩ : ServerState)
       [.message 1 (.parsed ⟨.vstr "colorCell", .vstr "5,5", .vstr "blue",
          .vstr "bob"⟩),
        .message 0 (.parsed ⟨.vstr "colorCell", .vstr "5,5", .vstr "red",
          .vstr "alice"⟩)]).1.grid "5,5"
       = some ⟨.vstr "blue", .vstr "bob"⟩ ∧
     (runFrom (⟨[], [0, 1], [0, 1]⟩ : ServerState)
       [.message 1 (.parsed ⟨.vstr "colorCell", .vstr "5,5", .vstr "blue",
          .vstr "bob"⟩),
        .message 0 (.parsed ⟨.vstr "colorCell", .vstr "5,5", .vstr "red",
          .vstr "alice"⟩)]).2
       = broadcastTo [0, 1] [0, 1]
           (.cellUpdate (.vstr "5,5") (.vstr "blue") (.vstr "bob"))) :=
  C8_concurrent_claims ⟨[], [0, 1], [0, 1]⟩ 0 1 "5,5"
    (.vstr "red") (.vstr "blue") (.vstr "alice") (.vstr "bob")
    (by decide) (by decide) (by decide) (by decide) (by decide) (by decide)
